import Mathlib

/-!
Verification of the core of a small static type checker for an
optionally-annotated scripting language.  The development shallowly embeds
the checker's data model (`Place`, `TypeVar`, `Scope`, `Environment`,
`CheckErr`), its syntax-tree interface (`Node`), and its per-construct
checking operations (`infer_type_for_node`, `infer_fn_body`,
`check_function_def`, `check_fn_call`, `check_binop`, `check_assignment`,
`check_visit`, and the diagnostic underline renderer), and proves the
specified properties about them.

Modelling conventions:
  * Run-aborting panics (`expect`, `unwrap`, `todo!`, arithmetic overflow in
    a debug build) are modelled as `Except.error` carrying the panic message.
  * The interior-mutability scope sharing (`Rc<RefCell<Scope>>`) is modelled
    by a registry of scopes keyed by scope name together with a live stack
    of scope names; a scope is mutated through the registry entry, which is
    exactly the observable behaviour of the shared handles (the registry is
    keyed by name and a scope is only ever created when its name is absent,
    so a name identifies one shared scope object).
  * `usize` values are `Nat`s bounded by `usize_max`; parsing and addition
    check the bound the way a debug build does (out of range panics).
  * Logging statements (`debug!`, `error!`, `println!`) have no effect on
    the checker state and are omitted; log argument expressions are not
    evaluated when logging is disabled, which is the modelled configuration.
-/

/-- Source position of a syntax-tree node: (row, column), both 0-indexed. -/
structure Pos where
  row : Nat
  column : Nat
deriving DecidableEq, Repr

/-- Identity of a binding or expression site: a label plus source (row, column). -/
structure Place where
  name : String
  row : Nat
  column : Nat
deriving DecidableEq, Repr

/-- `Place::exp_from_ts_point`. -/
def Place.exp_from_ts_point (point : Pos) : Place :=
  ⟨"exp", point.row, point.column⟩

/-- `Place::from_ts_point`. -/
def Place.from_ts_point (name : String) (point : Pos) : Place :=
  ⟨name, point.row, point.column⟩

/-- `Display` for `Place`: `{name}@{row},{column}`. -/
def display_place (p : Place) : String :=
  p.name ++ "@" ++ toString p.row ++ "," ++ toString p.column

/-- Derived `Debug` for `Place`. -/
def debug_place (p : Place) : String :=
  "Place \x7b name: \"" ++ p.name ++ "\", row: " ++ toString p.row
    ++ ", column: " ++ toString p.column ++ " \x7d"

/-- `Vec::<String>::join(sep)`. -/
def join_with (sep : String) (parts : List String) : String :=
  String.intercalate sep parts

mutual

/-- The closed type-value union of the checker (`TypeVar` in the source).
`Vec<TypeVar>` payloads become `TypeVarList` (a mutual list type, since this
Lean version does not support nested-inductive recursion). -/
inductive TypeVar where
  | Any
  | Integer (v : Nat)
  | String
  | Call (p : Place) (args rets : TypeVarList)
  | BinOp (p : Place)
  | None
  | Function (p : Place) (params rets : TypeVarList)
  | Union (ts : TypeVarList)
  | Var (p : Place)

/-- A list of `TypeVar`s (models `Vec<TypeVar>`). -/
inductive TypeVarList where
  | nil
  | cons (t : TypeVar) (ts : TypeVarList)

end

mutual

/-- Structural equality of `TypeVar`s (the derived `PartialEq` of the source). -/
def TypeVar.beq : TypeVar → TypeVar → Bool
  | .Any, .Any => true
  | .Integer a, .Integer b => a == b
  | .String, .String => true
  | .Call p a r, .Call q b s => p == q && TypeVarList.beq a b && TypeVarList.beq r s
  | .BinOp p, .BinOp q => p == q
  | .None, .None => true
  | .Function p a r, .Function q b s => p == q && TypeVarList.beq a b && TypeVarList.beq r s
  | .Union a, .Union b => TypeVarList.beq a b
  | .Var p, .Var q => p == q
  | _, _ => false

/-- Elementwise structural equality of `TypeVarList`s. -/
def TypeVarList.beq : TypeVarList → TypeVarList → Bool
  | .nil, .nil => true
  | .cons a as, .cons b bs => TypeVar.beq a b && TypeVarList.beq as bs
  | _, _ => false

end

/-- `Vec::contains` over a `TypeVarList` (uses the derived `PartialEq`). -/
def TypeVarList.contains : TypeVarList → TypeVar → Bool
  | .nil, _ => false
  | .cons x xs, t => TypeVar.beq x t || TypeVarList.contains xs t

/-- `Vec::contains` over a `List TypeVar` (uses the derived `PartialEq`). -/
def contains_tv : List TypeVar → TypeVar → Bool
  | [], _ => false
  | x :: xs, t => TypeVar.beq x t || contains_tv xs t

/-- `std::mem::discriminant`: the variant tag of a `TypeVar`, ignoring payloads. -/
def TypeVar.tag : TypeVar → Nat
  | .Any => 0
  | .Integer _ => 1
  | .String => 2
  | .Call _ _ _ => 3
  | .BinOp _ => 4
  | .None => 5
  | .Function _ _ _ => 6
  | .Union _ => 7
  | .Var _ => 8

/-- `TypeVar::type_check`, the compatibility predicate.  `none` models the
`todo!()` panic on the `Union` vs `Union` arm; every other pair yields
`some` of the boolean the source computes, with the source's match-arm
order preserved. -/
def type_check : TypeVar → TypeVar → Option Bool
  | .Any, _ => some true
  | _, .Any => some true
  | .Union _, .Union _ => Option.none
  | .Union tys, x => some (tys.contains x)
  | x, .Union tys => some (tys.contains x)
  | l, r => some (l.tag == r.tag)

def TypeVarList.toList : TypeVarList → List TypeVar
  | .nil => []
  | .cons t ts => t :: ts.toList

def TypeVarList.ofList : List TypeVar → TypeVarList
  | [] => .nil
  | t :: ts => .cons t (TypeVarList.ofList ts)

def TypeVarList.length : TypeVarList → Nat
  | .nil => 0
  | .cons _ ts => 1 + ts.length

def TypeVarList.head? : TypeVarList → Option TypeVar
  | .nil => Option.none
  | .cons t _ => some t

mutual

/-- `Display` for `TypeVar`, as implemented in the source. -/
def display_type_var : TypeVar → String
  | .Any => "Any()"
  | .Integer i => "Integer(" ++ toString i ++ ")"
  | .String => "String()"
  | .Call p args rets =>
      "Call(" ++ display_place p ++ ", [" ++ join_with "," (display_type_var_list args)
        ++ "] -> [" ++ join_with ", " (display_type_var_list rets) ++ "])"
  | .BinOp p => "BinOp(" ++ display_place p ++ ")"
  | .None => "None"
  | .Function p args rets =>
      "Function(" ++ display_place p ++ ", [" ++ join_with "," (display_type_var_list args)
        ++ "] -> [" ++ join_with ", " (display_type_var_list rets) ++ "])"
  | .Union ts => "Union(" ++ join_with ", " (display_type_var_list ts) ++ ")"
  | .Var p => "Var(" ++ display_place p ++ ")"

def display_type_var_list : TypeVarList → List String
  | .nil => []
  | .cons t ts => display_type_var t :: display_type_var_list ts

end

mutual

/-- Derived `Debug` for `TypeVar`. -/
def debug_type_var : TypeVar → String
  | .Any => "Any"
  | .Integer i => "Integer(" ++ toString i ++ ")"
  | .String => "String"
  | .Call p args rets =>
      "Call(" ++ debug_place p ++ ", [" ++ join_with ", " (debug_type_var_list args)
        ++ "], [" ++ join_with ", " (debug_type_var_list rets) ++ "])"
  | .BinOp p => "BinOp(" ++ debug_place p ++ ")"
  | .None => "None"
  | .Function p args rets =>
      "Function(" ++ debug_place p ++ ", [" ++ join_with ", " (debug_type_var_list args)
        ++ "], [" ++ join_with ", " (debug_type_var_list rets) ++ "])"
  | .Union ts => "Union([" ++ join_with ", " (debug_type_var_list ts) ++ "])"
  | .Var p => "Var(" ++ debug_place p ++ ")"

def debug_type_var_list : TypeVarList → List String
  | .nil => []
  | .cons t ts => debug_type_var t :: debug_type_var_list ts

end

/-- Derived `Debug` for a `Vec<TypeVar>`. -/
def debug_tv_vec (l : List TypeVar) : String :=
  "[" ++ join_with ", " (l.map debug_type_var) ++ "]"

/-- Modelled from the spec: `TypeVar::from_type_str` is called by the checker
but its definition is not among the provided sources.  Per the spec (§4.2)
it maps a declared-type annotation token to its baseline `TypeVar`:
`"int"` to `Integer` with no meaningful payload (`0` here), `"str"` to
`String`, `"None"` to `None`; an unrecognized token is an error (`none`). -/
def from_type_str (token : String) : Option TypeVar :=
  if token = "int" then some (.Integer 0)
  else if token = "str" then some .String
  else if token = "None" then some .None
  else Option.none

/-- `usize::MAX` on the 64-bit target. -/
def usize_max : Nat := 2 ^ 64 - 1

/-- Decimal accumulator for `parse_usize`. -/
def parse_digits : List Char → Nat → Option Nat
  | [], acc => some acc
  | c :: cs, acc =>
      if c.isDigit then parse_digits cs (acc * 10 + (c.toNat - 48)) else Option.none

/-- `str::parse::<usize>` on the digit strings the checker feeds it: the
numeric value of a non-empty all-digit string, `none` otherwise (the
in-range check is done at the call site, mirroring the parse failing on an
out-of-range literal). -/
def parse_usize (s : String) : Option Nat :=
  match s.data with
  | [] => Option.none
  | l => parse_digits l 0

mutual

/-- The slice of the external syntax-tree interface the engine consumes:
a kind tag, the exact source text the node spans (`utf8_text`), start/end
source positions, and the ordered child list.  Each child records its field
label (for `child_by_field_name`) and whether it is a named node (for
`named_children` / `named_child`). -/
inductive Node where
  | mk (kind text : String) (startP endP : Pos) (children : Children)

/-- Ordered children of a `Node`: field label, named flag, child. -/
inductive Children where
  | nil
  | cons (field : Option String) (named : Bool) (c : Node) (cs : Children)

end

def Node.kind : Node → String
  | .mk k _ _ _ _ => k

/-- `Node::utf8_text` (always succeeds on the modelled UTF-8 source). -/
def Node.text : Node → String
  | .mk _ t _ _ _ => t

def Node.start_position : Node → Pos
  | .mk _ _ s _ _ => s

def Node.end_position : Node → Pos
  | .mk _ _ _ e _ => e

def Node.children : Node → Children
  | .mk _ _ _ _ cs => cs

/-- `Node::child_by_field_name`: the first child carrying the field label. -/
def Children.child_by_field_name : Children → String → Option Node
  | .nil, _ => Option.none
  | .cons f _ c cs, fld => if f = some fld then some c else cs.child_by_field_name fld

def Node.child_by_field_name (n : Node) (fld : String) : Option Node :=
  n.children.child_by_field_name fld

/-- `Node::named_children`, in order. -/
def Children.named_list : Children → List Node
  | .nil => []
  | .cons _ named c cs => (if named then [c] else []) ++ cs.named_list

def Node.named_children (n : Node) : List Node :=
  n.children.named_list

/-- `Node::named_child(0)`. -/
def Node.named_child0 (n : Node) : Option Node :=
  n.named_children.head?

/-- A named binding table (`Scope`): `Place` to `TypeVar` bindings and an
identifier-to-`Place` var map.  The `HashMap`s are modelled as association
lists where an insert prepends and a lookup takes the first match. -/
structure Scope where
  name : String
  bindings : List (Place × TypeVar)
  var_place_map : List (String × Place)

/-- `Scope::new`. -/
def Scope.new (name : String) : Scope :=
  ⟨name, [], []⟩

/-- `Scope::insert_binding`. -/
def Scope.insert_binding (s : Scope) (pl : Place) (ty : TypeVar) : Scope :=
  { s with bindings := (pl, ty) :: s.bindings }

/-- `Scope::lookup_place`. -/
def Scope.lookup_place (s : Scope) (pl : Place) : Option TypeVar :=
  (s.bindings.find? (fun b => b.1 = pl)).map (·.2)

/-- `Scope::insert_var`. -/
def Scope.insert_var (s : Scope) (var : String) (pl : Place) : Scope :=
  { s with var_place_map := (var, pl) :: s.var_place_map }

/-- `Scope::lookup_var`. -/
def Scope.lookup_var (s : Scope) (var : String) : Option Place :=
  (s.var_place_map.find? (fun b => b.1 = var)).map (·.2)

/-- The `Environment`: the live stack of active scopes (innermost first)
plus the registry of every scope ever created, keyed by name.  The shared
`Rc<RefCell<Scope>>` handles of the source are modelled by storing scope
names on the stack and resolving them through the registry, so a mutation
through the stack top is seen by the registry entry and vice versa. -/
structure Environment where
  live_scopes : List String
  scopes : List (String × Scope)

/-- Registry lookup (`self.scopes.get(name)`). -/
def Environment.lookup_scope (env : Environment) (name : String) : Option Scope :=
  (env.scopes.find? (fun p => p.1 = name)).map (·.2)

/-- Apply `f` to the registry entry for `name` (a mutation through the
shared handle of that scope). -/
def update_scope (r : List (String × Scope)) (name : String) (f : Scope → Scope) :
    List (String × Scope) :=
  r.map (fun p => if p.1 = name then (p.1, f p.2) else p)

/-- `Environment::insert_binding`: writes into the top-of-stack scope; a
no-op when the live stack is empty (`if let Some(scope) = last()`). -/
def Environment.insert_binding (env : Environment) (pl : Place) (ty : TypeVar) : Environment :=
  match env.live_scopes with
  | [] => env
  | top :: _ => { env with scopes := update_scope env.scopes top (fun s => s.insert_binding pl ty) }

/-- `Environment::insert_var`: writes into the top-of-stack scope. -/
def Environment.insert_var (env : Environment) (var : String) (pl : Place) : Environment :=
  match env.live_scopes with
  | [] => env
  | top :: _ => { env with scopes := update_scope env.scopes top (fun s => s.insert_var var pl) }

/-- `Environment::lookup_binding`: search the live stack innermost-first. -/
def Environment.lookup_binding (env : Environment) (pl : Place) : Option TypeVar :=
  env.live_scopes.findSome? (fun nm => (env.lookup_scope nm).bind (fun s => s.lookup_place pl))

/-- `Environment::lookup_var`: search the live stack innermost-first. -/
def Environment.lookup_var (env : Environment) (var : String) : Option Place :=
  env.live_scopes.findSome? (fun nm => (env.lookup_scope nm).bind (fun s => s.lookup_var var))

/-- `Environment::var_type`: resolve the identifier's current `Place`, then
its bound type; `none` when either step fails. -/
def Environment.var_type (env : Environment) (var : String) : Option TypeVar :=
  (env.lookup_var var).bind (fun p => env.lookup_binding p)

/-- `Environment::create_scope`: register a fresh scope and push it. -/
def Environment.create_scope (env : Environment) (name : String) : Environment :=
  { live_scopes := name :: env.live_scopes,
    scopes := (name, Scope.new name) :: env.scopes }

/-- `Environment::new`: seeded with a single module-level scope. -/
def Environment.new (name : String) : Environment :=
  Environment.create_scope ⟨[], []⟩ name

/-- `Environment::enter_scope`: push the registered scope of that name if it
exists, else create, register and push a fresh one.  The returned
`ScopeGuard`'s `Drop` is modelled by an explicit `leave_scope` at every exit
point of the enclosing construct. -/
def Environment.enter_scope (env : Environment) (name : String) : Environment :=
  match env.lookup_scope name with
  | some _ => { env with live_scopes := name :: env.live_scopes }
  | _ => env.create_scope name

/-- One pop of the live stack (`ScopeGuard::drop` / `Environment::leave_scope`). -/
def Environment.leave_scope (env : Environment) : Environment :=
  { env with live_scopes := env.live_scopes.tail }

/-- A diagnostic (`CheckErr`): message, start `Place`, optional end `Place`. -/
structure CheckErr where
  msg : String
  start_place : Place
  end_place : Option Place
deriving Repr

/-- `CheckErr::new`. -/
def CheckErr.new (msg : String) (start_place : Place) (end_place : Option Place) : CheckErr :=
  ⟨msg, start_place, end_place⟩

/-- `CheckErr::new_from_node`. -/
def CheckErr.new_from_node (msg : String) (n : Node) : CheckErr :=
  ⟨msg, Place.from_ts_point "start" n.start_position,
    some (Place.from_ts_point "end" n.end_position)⟩

/-- The checker state: the environment and the accumulated diagnostics, in
visitation order.  (The source also stores the source text and file name;
the text travels with each `Node` here and the file name only feeds log
output.) -/
structure Checker where
  env : Environment
  errors : List CheckErr

/-- `Checker::new`. -/
def Checker.new (file_name : String) : Checker :=
  ⟨Environment.new file_name, []⟩

mutual

/-- `Checker::infer_type_for_node`.  Pure in the environment (the source
takes `&mut self` but only reads).  `.error` models the `expect` panics;
`.ok Option.none` models the source returning `None` (triggered by the `?`
operator in the `call` arm). -/
def infer_type_for_node (env : Environment) : Node → Except String (Option TypeVar)
  | .mk k txt startP _ cs =>
    match k with
    | "identifier" =>
        match env.var_type txt with
        | some ty => .ok (some ty)
        | _ => .error ("couldnt find type for var " ++ txt)
    | "call" =>
        match infer_field env cs "function" with
        | Option.none => .error "getting fn name"
        | some (.error m) => .error m
        | some (.ok Option.none) => .ok Option.none
        | some (.ok (some sig)) =>
            match sig with
            | .Function _ _ ret_val =>
                if ret_val.length == 1 then .ok ret_val.head?
                else .ok (some (.Union ret_val))
            | _ => .ok (some .None)
    | "integer" =>
        match parse_usize txt with
        | some v => if v ≤ usize_max then .ok (some (.Integer v)) else .error "error parsing"
        | _ => .error "error parsing"
    | "string" => .ok (some .String)
    | "return_statement" =>
        match infer_first_named env cs with
        | Option.none => .ok (some .None)
        | some (.error m) => .error m
        | some (.ok (some ty)) => .ok (some ty)
        | some (.ok Option.none) => .error "invalid return statement"
    | "binary_operator" => .ok (some (.BinOp (Place.from_ts_point "binop" startP)))
    | "typed_parameter" =>
        match cs.child_by_field_name "type" with
        | Option.none => .error "called Option::unwrap() on a None value"
        | some tyN =>
            match from_type_str tyN.text with
            | some ty => .ok (some ty)
            | _ => .error "error getting type"
    | "none" => .ok (some .None)
    | _ => .ok (some (.Var (Place.exp_from_ts_point startP)))

/-- `child_by_field_name(fld)` followed by `infer_type_for_node` on the
found child; `none` when no child carries the field label. -/
def infer_field (env : Environment) : Children → String → Option (Except String (Option TypeVar))
  | .nil, _ => Option.none
  | .cons f _ c cs, fld =>
      if f = some fld then some (infer_type_for_node env c) else infer_field env cs fld

/-- `named_child(0)` followed by `infer_type_for_node` on it; `none` when
the node has no named child. -/
def infer_first_named (env : Environment) : Children → Option (Except String (Option TypeVar))
  | .nil => Option.none
  | .cons _ named c cs =>
      if named then some (infer_type_for_node env c) else infer_first_named env cs

end

mutual

/-- The pre-order `visit_all_children` traversal of `infer_fn_body`,
restricted to its only effect: the `return_statement` nodes of the subtree,
in visitation order (the node itself first, then its children in order,
descending into every child). -/
def Node.collect_returns : Node → List Node
  | .mk k t s e cs =>
      (if k == "return_statement" then [Node.mk k t s e cs] else []) ++ cs.collect_returns_list

def Children.collect_returns_list : Children → List Node
  | .nil => []
  | .cons _ _ c cs => c.collect_returns ++ cs.collect_returns_list

end

/-- The per-return-statement body of the `infer_fn_body` traversal, over the
collected return statements in visitation order: infer each return's type,
and when an allowed-type list was supplied and does not contain the
inferred type (`Vec::contains`, i.e. exact equality), emit a diagnostic
tied to that return statement.  Yields the emitted diagnostics and the
collected return types, both in order. -/
def process_returns (env : Environment) (allowed_types : Option (List TypeVar)) :
    List Node → Except String (List CheckErr × List TypeVar)
  | [] => .ok ([], [])
  | r :: rs =>
    match infer_type_for_node env r with
    | .error m => .error m
    | .ok Option.none => .error "error infering return"
    | .ok (some return_type) =>
      let new_errs : List CheckErr :=
        match allowed_types with
        | some allowed =>
            if contains_tv allowed return_type then []
            else [CheckErr.new_from_node
                    ("Unexpected return type " ++ display_type_var return_type
                      ++ ", fn signature return " ++ debug_tv_vec allowed) r]
        | _ => []
      match process_returns env allowed_types rs with
      | .error m => .error m
      | .ok (errs, tys) => .ok (new_errs ++ errs, return_type :: tys)

/-- `Checker::infer_fn_body`: scan the whole body for return statements,
check each against the allowed types when present, and return the emitted
diagnostics together with the discovered return-type list, which defaults
to `[None]` when no return statement was found. -/
def infer_fn_body (env : Environment) (node : Node) (allowed_types : Option (List TypeVar)) :
    Except String (List CheckErr × List TypeVar) :=
  match process_returns env allowed_types node.collect_returns with
  | .error m => .error m
  | .ok (errs, tys) => .ok (errs, match tys with | [] => [.None] | _ => tys)

/-- The parameter loop of `Checker::check_function_def`: for each named
child of the parameters node, a `typed_parameter` gets its annotated type
(via `infer_type_for_node`), anything else `Any`; the parameter's `Place`
is bound to the type and the parameter name registered, in the current
(function) scope.  Yields the updated environment and the parameter types
in order. -/
def process_params (env : Environment) : List Node → Except String (Environment × List TypeVar)
  | [] => .ok (env, [])
  | n :: ns =>
    match
      (if n.kind == "typed_parameter" then
        match infer_type_for_node env n with
        | .error m => .error m
        | .ok Option.none => .error "error getting param type"
        | .ok (some t) => .ok t
      else (.ok .Any : Except String TypeVar)) with
    | .error m => .error m
    | .ok p_type =>
      let param_place := Place.from_ts_point n.text n.start_position
      let env' := (env.insert_binding param_place p_type).insert_var n.text param_place
      match process_params env' ns with
      | .error m => .error m
      | .ok (envF, tys) => .ok (envF, p_type :: tys)

/-- `Checker::check_function_def`: read name/parameters/body, enter the
function's scope, bind the parameters, determine the result-type list (the
declared annotation when present — checking the body against it — else the
inferred return types), leave the scope, then bind the function name in the
enclosing scope to `Function(place, param types, result types)`. -/
def check_function_def (c : Checker) (node : Node) : Except String Checker :=
  match node.child_by_field_name "name" with
  | Option.none => .error "no fn name"
  | some nameN =>
    let fn_name := nameN.text
    let fn_place := Place.from_ts_point fn_name node.start_position
    match node.child_by_field_name "parameters" with
    | Option.none => .error "no parameters"
    | some param_node =>
      match node.child_by_field_name "body" with
      | Option.none => .error "error getting fn body"
      | some body_node =>
        let env1 := c.env.enter_scope fn_name
        match process_params env1 param_node.named_children with
        | .error m => .error m
        | .ok (env2, param_types) =>
          match
            ((match node.child_by_field_name "return_type" with
            | some rtN =>
                match from_type_str rtN.text with
                | Option.none => .error "couldnt get type"
                | some rty =>
                    match infer_fn_body env2 body_node (some [rty]) with
                    | .error m => .error m
                    | .ok (errs, _) => .ok (errs, [rty])
            | Option.none =>
                match infer_fn_body env2 body_node Option.none with
                | .error m => .error m
                | .ok (errs, tys) => .ok (errs, tys)) :
              Except String (List CheckErr × List TypeVar)) with
          | .error m => .error m
          | .ok (errs, return_type) =>
            let env3 := env2.leave_scope
            let env4 := (env3.insert_binding fn_place
                (.Function fn_place (TypeVarList.ofList param_types)
                  (TypeVarList.ofList return_type))).insert_var fn_name fn_place
            .ok ⟨env4, c.errors ++ errs⟩

/-- `Checker::call_reveal_type`: the `reveal_type` pseudo-call.  Prints the
type of each resolvable argument (no state change); more than one argument
or none is an arity diagnostic spanning the argument list. -/
def call_reveal_type (c : Checker) (node : Node) : Except String (Checker × Option CheckErr) :=
  match node.child_by_field_name "arguments" with
  | Option.none => .error "error getting args"
  | some fn_args_list =>
    let arg_types := fn_args_list.named_children.map (fun n => c.env.var_type n.text)
    if arg_types.length > 1 then
      .ok (c, some (CheckErr.new_from_node "To many arguments" fn_args_list))
    else if arg_types.isEmpty then
      .ok (c, some (CheckErr.new_from_node "No argument give" fn_args_list))
    else .ok (c, Option.none)

/-- The argument-collection map of `Checker::check_fn_call`: infer each
argument expression's type; an argument with no inferable type becomes a
per-argument "no type available" diagnostic value (`ok_or_else`). -/
def infer_args (env : Environment) : List Node → Except String (List (Node × Except CheckErr TypeVar))
  | [] => .ok []
  | n :: ns =>
    match infer_type_for_node env n with
    | .error m => .error m
    | .ok o =>
      let r : Except CheckErr TypeVar :=
        match o with
        | some t => .ok t
        | _ => .error (CheckErr.new "no type available"
                  (Place.from_ts_point "fnarg" n.start_position) Option.none)
      match infer_args env ns with
      | .error m => .error m
      | .ok rest => .ok ((n, r) :: rest)

/-- The pairwise comparison loop of `Checker::check_fn_call` (run only when
the argument count equals the parameter count): compare each argument type
against the corresponding parameter via `type_check`, collecting one
non-fatal `TypeMismatch` diagnostic per failing pair and the per-argument
diagnostics of arguments whose type is unavailable; `type_check`'s
`Union` vs `Union` `todo!()` is a panic. -/
def compare_args (fn_name : String) :
    List (Node × Except CheckErr TypeVar) → List TypeVar → Except String (List CheckErr)
  | [], _ => .ok []
  | (n, .ok arg_ty) :: rest, b :: bs =>
      (match type_check arg_ty b with
      | Option.none => .error "not yet implemented"
      | some ok =>
        let here : List CheckErr :=
          if ok then []
          else [CheckErr.new
                  ("Type mismatch calling fn `" ++ fn_name ++ "` Expected "
                    ++ display_type_var b ++ " found " ++ display_type_var arg_ty)
                  (Place.from_ts_point "arg" n.start_position)
                  (some (Place.from_ts_point "arg" n.end_position))]
        match compare_args fn_name rest bs with
        | .error m => .error m
        | .ok errs => .ok (here ++ errs))
  | (_, .error e) :: rest, _ :: bs =>
      (match compare_args fn_name rest bs with
      | .error m => .error m
      | .ok errs => .ok (e :: errs))
  | _ :: _, [] => .error "called Option::unwrap() on a None value"

/-- `Checker::check_fn_call`: dispatch `reveal_type` to its handler; for
any other call, enter a scope named after the callee, resolve the callee's
type, and when it is a `Function`: infer the argument types, return an
`ArityMismatch` diagnostic spanning the whole call when the counts differ,
else run the pairwise comparison, appending its diagnostics.  A callee that
does not resolve to a `Function` type checks nothing.  Every exit releases
the scope guard (one pop). -/
def check_fn_call (c : Checker) (node : Node) : Except String (Checker × Option CheckErr) :=
  match node.child_by_field_name "function" with
  | Option.none => .error "error getting fn name"
  | some fnN =>
    let fn_name := fnN.text
    if fn_name == "reveal_type" then call_reveal_type c node
    else
      let env1 := c.env.enter_scope fn_name
      let fn_sig := env1.var_type fn_name
      match node.child_by_field_name "arguments" with
      | Option.none => .error "error getting args"
      | some fn_args_list =>
        match fn_sig with
        | some (.Function _ params _) =>
          match infer_args env1 fn_args_list.named_children with
          | .error m => .error m
          | .ok arg_types =>
            if arg_types.length ≠ params.toList.length then
              .ok (⟨env1.leave_scope, c.errors⟩,
                some (CheckErr.new
                  ("Fn called with " ++ toString arg_types.length ++ " args expected "
                    ++ toString params.toList.length)
                  (Place.from_ts_point "fncall" node.start_position)
                  (some (Place.from_ts_point "fncall" node.end_position))))
            else
              match compare_args fn_name arg_types params.toList with
              | .error m => .error m
              | .ok errs => .ok (⟨env1.leave_scope, c.errors ++ errs⟩, Option.none)
        | _ => .ok (⟨env1.leave_scope, c.errors⟩, Option.none)

/-- The success path of `Checker::check_binop`: record the operation as a
`Call`-shaped type at the operator's `Place`, and both operand types and
the result type at their own `Place`s. -/
def binop_record (env : Environment) (node arg1 arg2 : Node)
    (a1_type a2_type return_type : TypeVar) : Environment :=
  let binop_place := Place.from_ts_point "binop" node.start_position
  let binop_type := TypeVar.Call binop_place
      (TypeVarList.ofList [a1_type, a2_type]) (TypeVarList.ofList [return_type])
  (((env.insert_binding binop_place binop_type).insert_binding
      (Place.from_ts_point "arg1" arg1.start_position) a1_type).insert_binding
      (Place.from_ts_point "arg2" arg2.start_position) a2_type).insert_binding
      (Place.from_ts_point "return" node.start_position) return_type

/-- `Checker::check_binop`: infer both operand types; `(Integer, Integer)`
yields `Integer` of the summed payloads, `(String, String)` yields
`String`, anything else is a `TypeMismatch` diagnostic spanning the
operator node with nothing recorded.  On success the operation, operands
and result are each bound at their own `Place`s. -/
def check_binop (c : Checker) (node : Node) : Except String (Checker × Option CheckErr) :=
  let binop_place := Place.from_ts_point "binop" node.start_position
  match node.child_by_field_name "left" with
  | Option.none => .error "error getting lhs"
  | some arg1 =>
    match node.child_by_field_name "right" with
    | Option.none => .error "error getting rhs"
    | some arg2 =>
      match infer_type_for_node c.env arg1 with
      | .error m => .error m
      | .ok Option.none => .error "no type infered"
      | .ok (some a1_type) =>
        match infer_type_for_node c.env arg2 with
        | .error m => .error m
        | .ok Option.none => .error "no type infered"
        | .ok (some a2_type) =>
          match a1_type, a2_type with
          | .Integer a, .Integer b =>
              -- `a + b` on `usize` panics on overflow in a debug build
              if a + b ≤ usize_max then
                .ok (⟨binop_record c.env node arg1 arg2 a1_type a2_type (.Integer (a + b)),
                  c.errors⟩, Option.none)
              else .error "attempt to add with overflow"
          | .String, .String =>
              .ok (⟨binop_record c.env node arg1 arg2 a1_type a2_type .String, c.errors⟩,
                Option.none)
          | _, _ =>
              -- any other pairing returns `Err(CheckErr …)`, pushed by the caller
              .ok (c, some (CheckErr.new
                ("Invalid types (" ++ debug_type_var a1_type ++ ", "
                  ++ debug_type_var a2_type ++ ") for BinOp")
                binop_place (some (Place.from_ts_point "binop" node.end_position))))

/-- `Checker::check_assignment`: infer the right-hand side; with an explicit
type annotation, bind the left-hand `Place` to the declared type,
register the identifier, and report a `TypeMismatch` spanning the whole
assignment when `type_check(declared, inferred)` fails; without one, bind
the inferred type and register the identifier. -/
def check_assignment (c : Checker) (node : Node) : Except String (Checker × Option CheckErr) :=
  match node.child_by_field_name "left" with
  | Option.none => .error "No lhs in assignment"
  | some lhs =>
    let id := lhs.text
    let left_place := Place.from_ts_point id lhs.start_position
    match node.child_by_field_name "right" with
    | Option.none => .error "No rhs in assignment"
    | some rhs =>
      match infer_type_for_node c.env rhs with
      | .error m => .error m
      | .ok Option.none => .error "couldnt infer rhs"
      | .ok (some rhs_type) =>
        match node.child_by_field_name "type" with
        | some type_node =>
          match from_type_str type_node.text with
          | Option.none => .error "unable to get type"
          | some ty =>
            let env' := (c.env.insert_binding left_place ty).insert_var id left_place
            match type_check ty rhs_type with
            | Option.none => .error "not yet implemented"
            | some ok =>
              if ok then .ok (⟨env', c.errors⟩, Option.none)
              else .ok (⟨env', c.errors⟩, some (CheckErr.new_from_node
                ("Mismatched types while assigning to '" ++ id ++ "' expected "
                  ++ display_type_var ty ++ " found " ++ display_type_var rhs_type) node))
        | Option.none =>
          let env' := (c.env.insert_binding left_place rhs_type).insert_var id left_place
          .ok (⟨env', c.errors⟩, Option.none)

/-- The `unwrap_or_else(|err| self.errors.push(err))` wrapper of
`Checker::check_visit`: a returned diagnostic is appended to the error
list and checking continues. -/
def push_result : Except String (Checker × Option CheckErr) → Except String Checker
  | .error m => .error m
  | .ok (c, Option.none) => .ok c
  | .ok (c, some e) => .ok { c with errors := c.errors ++ [e] }

/-- `Checker::check_visit`: per-node dispatch on the syntactic kind; node
kinds with no rule are ignored. -/
def check_visit (c : Checker) (node : Node) : Except String Checker :=
  match node.kind with
  | "expression_statement" => .ok c
  | "assignment" => push_result (check_assignment c node)
  | "binary_operator" => push_result (check_binop c node)
  | "function_definition" => check_function_def c node
  | "call" => push_result (check_fn_call c node)
  | "module" => .ok c
  | _ => .ok c

/-- `str::repeat`. -/
def str_repeat (s : String) : Nat → String
  | 0 => ""
  | n + 1 => s ++ str_repeat s n

/-- The underline block of `Checker::print_errors` for one diagnostic with
an end `Place`: `end.column - start.column` caret characters aligned under
the start column (after the line-number gutter).  The `usize` subtraction
panics in a debug build when `end.column < start.column`. -/
def render_underline (err : CheckErr) : Except String String :=
  match err.end_place with
  | some end_place =>
    let col := err.start_place.column
    if end_place.column < col then .error "attempt to subtract with overflow"
    else
      let num_carrots := end_place.column - col
      let prefix_len := (toString err.start_place.row).length + 1
      .ok (str_repeat " " prefix_len ++ " | " ++ str_repeat " " col
        ++ str_repeat "^" num_carrots)
  | Option.none => .ok (str_repeat " " err.start_place.column)

/-- Shorthand for a leaf identifier node. -/
def node_id (name : String) (s e : Pos) : Node := Node.mk "identifier" name s e .nil

/-- Shorthand for a leaf integer-literal node. -/
def node_int (txt : String) (s e : Pos) : Node := Node.mk "integer" txt s e .nil

/-- Shorthand for a leaf string-literal node. -/
def node_str (txt : String) (s e : Pos) : Node := Node.mk "string" txt s e .nil

/-- The assignment `a = x` with `x` unbound (row 0). -/
def assign_undefined_node : Node :=
  Node.mk "assignment" "a = x" ⟨0, 0⟩ ⟨0, 5⟩
    (.cons (some "left") true (node_id "a" ⟨0, 0⟩ ⟨0, 1⟩)
    (.cons (some "right") true (node_id "x" ⟨0, 4⟩ ⟨0, 5⟩) .nil))

/-- `return 1` at row 0, columns 16–24. -/
def return_one_node : Node :=
  Node.mk "return_statement" "return 1" ⟨0, 16⟩ ⟨0, 24⟩
    (.cons Option.none false (Node.mk "return" "return" ⟨0, 16⟩ ⟨0, 22⟩ .nil)
    (.cons Option.none true (node_int "1" ⟨0, 23⟩ ⟨0, 24⟩) .nil))

/-- The function definition `def f() -> int: return 1`. -/
def fn_def_int_node : Node :=
  Node.mk "function_definition" "def f() -> int: return 1" ⟨0, 0⟩ ⟨0, 24⟩
    (.cons (some "name") true (node_id "f" ⟨0, 4⟩ ⟨0, 5⟩)
    (.cons (some "parameters") true (Node.mk "parameters" "()" ⟨0, 5⟩ ⟨0, 7⟩ .nil)
    (.cons (some "return_type") true (Node.mk "type" "int" ⟨0, 11⟩ ⟨0, 14⟩ .nil)
    (.cons (some "body") true
      (Node.mk "block" "return 1" ⟨0, 16⟩ ⟨0, 24⟩ (.cons Option.none true return_one_node .nil))
      .nil))))

/-- Extract the accumulated diagnostics of a checker run (empty on a panic). -/
def errors_of : Except String Checker → List CheckErr
  | .ok c => c.errors
  | .error _ => []


def TypeVar.isUnion : TypeVar → Bool
  | .Union _ => true
  | _ => false

/-- The compatibility predicate as the specification words it, read as
sequential cases: true when either operand is `Any`; else, when exactly one
operand is `Union(ts)`, true iff the other operand is an exact member of
`ts` (payload included); otherwise true iff the operands share a variant
tag, payloads ignored.  (The both-`Union` case is unreachable under the
comparison hypothesis.) -/
def type_check_claimed (a b : TypeVar) : Bool :=
  match a, b with
  | .Any, _ => true
  | _, .Any => true
  | .Union ts, other => ts.contains other
  | other, .Union ts => ts.contains other
  | _, _ => a.tag == b.tag

/-- The diagnostic `check_fn_call` emits for a mismatched argument/parameter
pair. -/
def arg_mismatch_err (fn_name : String) (n : Node) (arg_ty b : TypeVar) : CheckErr :=
  CheckErr.new
    ("Type mismatch calling fn `" ++ fn_name ++ "` Expected "
      ++ display_type_var b ++ " found " ++ display_type_var arg_ty)
    (Place.from_ts_point "arg" n.start_position)
    (some (Place.from_ts_point "arg" n.end_position))

/-- The diagnostics the claim predicts for a matched-arity call: walk the
argument/parameter pairs in order and keep one diagnostic per failing
`type_check` pair (and the per-argument diagnostic of an argument whose
type was unavailable). -/
def pairwise_mismatch_errs (fn_name : String) (args : List (Node × Except CheckErr TypeVar))
    (params : List TypeVar) : List CheckErr :=
  (args.zip params).filterMap (fun x =>
    match x with
    | ((n, .ok arg_ty), b) =>
        if type_check arg_ty b = some false then some (arg_mismatch_err fn_name n arg_ty b)
        else Option.none
    | ((_, .error e), _) => some e)

/-- The diagnostic `infer_fn_body` emits for an offending return statement. -/
def return_type_err (allowed : List TypeVar) (r : Node) (ty : TypeVar) : CheckErr :=
  CheckErr.new_from_node
    ("Unexpected return type " ++ display_type_var ty
      ++ ", fn signature return " ++ debug_tv_vec allowed) r

/-- The diagnostics the (amended) claim predicts for a checked function
body: one per discovered return statement whose inferred type is not an
exact member of the declared result-type list, in discovery order. -/
def return_mismatch_errs (env : Environment) (allowed : List TypeVar) (rs : List Node) :
    List CheckErr :=
  rs.filterMap (fun r =>
    match infer_type_for_node env r with
    | .ok (some ty) =>
        if contains_tv allowed ty then Option.none else some (return_type_err allowed r ty)
    | _ => Option.none)

/-- The binary operation `1 + "x"` written across two source lines (as in
`c = (1 +⏎"x")`): the operator node starts at column 5 of row 0 and ends at
column 3 of row 1, i.e. its end column is smaller than its start column. -/
def binop_multiline_node : Node :=
  Node.mk "binary_operator" "1 +\n\"x\"" ⟨0, 5⟩ ⟨1, 3⟩
    (.cons (some "left") true (node_int "1" ⟨0, 5⟩ ⟨0, 6⟩)
    (.cons (some "right") true (node_str "\"x\"" ⟨1, 0⟩ ⟨1, 3⟩) .nil))

/-- The binary operation `1 + 2` (as in `c = 1 + 2`, row 0, columns 4–9). -/
def binop_ints_node : Node :=
  Node.mk "binary_operator" "1 + 2" ⟨0, 4⟩ ⟨0, 9⟩
    (.cons (some "left") true (node_int "1" ⟨0, 4⟩ ⟨0, 5⟩)
    (.cons (some "right") true (node_int "2" ⟨0, 8⟩ ⟨0, 9⟩) .nil))

/-- A checker state in which `f` is bound, in the module scope, to
`Function(f@0,0, [Integer(0)], [Integer(0)])` — the state after checking
a definition of `f` with one `int` parameter and an `int` result. -/
def checker_with_f : Checker :=
  ⟨⟨["test.py"],
    [("test.py",
      ⟨"test.py",
       [(⟨"f", 0, 0⟩, .Function ⟨"f", 0, 0⟩
          (.cons (.Integer 0) .nil) (.cons (.Integer 0) .nil))],
       [("f", ⟨"f", 0, 0⟩)]⟩)]⟩, []⟩

/-- The call `f("a")` at row 1. -/
def call_f_str_node : Node :=
  Node.mk "call" "f(\"a\")" ⟨1, 0⟩ ⟨1, 6⟩
    (.cons (some "function") true (node_id "f" ⟨1, 0⟩ ⟨1, 1⟩)
    (.cons (some "arguments") true
      (Node.mk "argument_list" "(\"a\")" ⟨1, 1⟩ ⟨1, 6⟩
        (.cons Option.none true (node_str "\"a\"" ⟨1, 2⟩ ⟨1, 5⟩) .nil)) .nil))

/-- The call `f(1, 2)` at row 1 (two arguments against one parameter). -/
def call_f_two_args_node : Node :=
  Node.mk "call" "f(1, 2)" ⟨1, 0⟩ ⟨1, 7⟩
    (.cons (some "function") true (node_id "f" ⟨1, 0⟩ ⟨1, 1⟩)
    (.cons (some "arguments") true
      (Node.mk "argument_list" "(1, 2)" ⟨1, 1⟩ ⟨1, 7⟩
        (.cons Option.none true (node_int "1" ⟨1, 2⟩ ⟨1, 3⟩)
        (.cons Option.none true (node_int "2" ⟨1, 5⟩ ⟨1, 6⟩) .nil))) .nil))

/-- The call `g(1)` at row 0, with `g` nowhere defined. -/
def call_g_node : Node :=
  Node.mk "call" "g(1)" ⟨0, 0⟩ ⟨0, 4⟩
    (.cons (some "function") true (node_id "g" ⟨0, 0⟩ ⟨0, 1⟩)
    (.cons (some "arguments") true
      (Node.mk "argument_list" "(1)" ⟨0, 1⟩ ⟨0, 4⟩
        (.cons Option.none true (node_int "1" ⟨0, 2⟩ ⟨0, 3⟩) .nil)) .nil))

/-- A checker state in which `g` is bound, in the module scope, to a
`Function` whose result set has the two members `Integer(1)` and `String` —
the state after a definition of `g` with `return 1` and `return "a"` on
different paths. -/
def checker_with_g : Checker :=
  ⟨⟨["test.py"],
    [("test.py",
      ⟨"test.py",
       [(⟨"g", 0, 0⟩, .Function ⟨"g", 0, 0⟩ .nil
          (.cons (.Integer 1) (.cons .String .nil)))],
       [("g", ⟨"g", 0, 0⟩)]⟩)]⟩, []⟩

/-- The call `g()` at row 1, used as a value. -/
def call_g_value_node : Node :=
  Node.mk "call" "g()" ⟨1, 4⟩ ⟨1, 7⟩
    (.cons (some "function") true (node_id "g" ⟨1, 4⟩ ⟨1, 5⟩)
    (.cons (some "arguments") true
      (Node.mk "argument_list" "()" ⟨1, 5⟩ ⟨1, 7⟩ .nil) .nil))

/-- `return 1` at row 1. -/
def return_one_row1_node : Node :=
  Node.mk "return_statement" "return 1" ⟨1, 4⟩ ⟨1, 12⟩
    (.cons Option.none true (node_int "1" ⟨1, 11⟩ ⟨1, 12⟩) .nil)

/-- `return 2` at row 2. -/
def return_two_row2_node : Node :=
  Node.mk "return_statement" "return 2" ⟨2, 4⟩ ⟨2, 12⟩
    (.cons Option.none true (node_int "2" ⟨2, 11⟩ ⟨2, 12⟩) .nil)

/-- A function body with two offending `return` statements:
`return 1` (row 1) and `return 2` (row 2) in a body declared `-> str`. -/
def body_two_int_returns : Node :=
  Node.mk "block" "return 1\nreturn 2" ⟨1, 4⟩ ⟨2, 12⟩
    (.cons Option.none true return_one_row1_node
    (.cons Option.none true return_two_row2_node .nil))

/-- The checker state produced by checking `def f() -> int: return 1` from
a fresh session (used to witness stack preservation on a completed visit). -/
def checker_after_fn_def : Checker :=
  match check_visit (Checker.new "test.py") fn_def_int_node with
  | .ok c => c
  | .error _ => Checker.new "test.py"

/-- The checker state produced by checking the call `g(1)` (unknown callee)
from a fresh session. -/
def checker_after_call_g : Checker :=
  match check_visit (Checker.new "test.py") call_g_node with
  | .ok c => c
  | .error _ => Checker.new "test.py"

/-- The environment footprint every completed engine operation must have:
the live stack is restored, and every scope present in the registry before
is still present after (scopes are never removed). -/
def env_preserved (a b : Environment) : Prop :=
  b.live_scopes = a.live_scopes ∧
    ∀ nm, (a.lookup_scope nm).isSome → (b.lookup_scope nm).isSome

mutual

theorem type_var_beq_iff : ∀ a b : TypeVar, TypeVar.beq a b = true ↔ a = b
  | .Any, b => by cases b <;> simp [TypeVar.beq]
  | .Integer a, b => by cases b <;> simp [TypeVar.beq]
  | .String, b => by cases b <;> simp [TypeVar.beq]
  | .Call p a r, b => by
      cases b <;> simp [TypeVar.beq, type_var_list_beq_iff a, type_var_list_beq_iff r, and_assoc]
  | .BinOp p, b => by cases b <;> simp [TypeVar.beq]
  | .None, b => by cases b <;> simp [TypeVar.beq]
  | .Function p a r, b => by
      cases b <;> simp [TypeVar.beq, type_var_list_beq_iff a, type_var_list_beq_iff r, and_assoc]
  | .Union a, b => by cases b <;> simp [TypeVar.beq, type_var_list_beq_iff a]
  | .Var p, b => by cases b <;> simp [TypeVar.beq]

theorem type_var_list_beq_iff : ∀ a b : TypeVarList, TypeVarList.beq a b = true ↔ a = b
  | .nil, b => by cases b <;> simp [TypeVarList.beq]
  | .cons x xs, b => by
      cases b <;> simp [TypeVarList.beq, type_var_beq_iff x, type_var_list_beq_iff xs]

end

theorem Environment.live_insert_binding (env : Environment) (pl : Place) (ty : TypeVar) :
    (env.insert_binding pl ty).live_scopes = env.live_scopes := by
  unfold Environment.insert_binding; split <;> rfl

theorem Environment.live_insert_var (env : Environment) (v : String) (pl : Place) :
    (env.insert_var v pl).live_scopes = env.live_scopes := by
  unfold Environment.insert_var; split <;> rfl

theorem Environment.live_enter_scope (env : Environment) (name : String) :
    (env.enter_scope name).live_scopes = name :: env.live_scopes := by
  unfold Environment.enter_scope Environment.create_scope; split <;> rfl

theorem Environment.live_leave_scope (env : Environment) :
    env.leave_scope.live_scopes = env.live_scopes.tail := rfl

theorem Environment.scopes_leave_scope (env : Environment) :
    env.leave_scope.scopes = env.scopes := rfl

theorem update_scope_cons (k : String) (s : Scope) (tl : List (String × Scope))
    (n : String) (f : Scope → Scope) :
    update_scope ((k, s) :: tl) n f
      = (if k = n then (k, f s) else (k, s)) :: update_scope tl n f := by
  unfold update_scope
  simp only [List.map_cons]

theorem isSome_map_snd (o : Option (String × Scope)) :
    (o.map (fun x => x.2)).isSome = o.isSome := by
  cases o <;> rfl

theorem find_update_scope_isSome (n n' : String) (f : Scope → Scope) :
    ∀ r : List (String × Scope),
      ((update_scope r n f).find? (fun p => p.1 = n')).isSome
        = (r.find? (fun p => p.1 = n')).isSome
  | [] => rfl
  | (k, s) :: tl => by
      have ih := find_update_scope_isSome n n' f tl
      rw [update_scope_cons]
      by_cases hk' : k = n'
      · subst hk'
        by_cases hk : k = n
        · subst hk; simp [List.find?_cons]
        · simp [List.find?_cons, hk]
      · by_cases hk : k = n
        · subst hk; simp [List.find?_cons, hk', ih]
        · simp [List.find?_cons, hk, hk', ih]

theorem find_update_scope_self (n : String) (f : Scope → Scope) :
    ∀ r : List (String × Scope),
      (update_scope r n f).find? (fun p => p.1 = n)
        = (r.find? (fun p => p.1 = n)).map (fun p => (p.1, f p.2))
  | [] => rfl
  | (k, s) :: tl => by
      have ih := find_update_scope_self n f tl
      rw [update_scope_cons]
      by_cases hk : k = n
      · subst hk; simp [List.find?_cons]
      · simp [List.find?_cons, hk, ih]

theorem Environment.lookup_scope_insert_binding (env : Environment) (pl : Place)
    (ty : TypeVar) (nm : String) :
    ((env.insert_binding pl ty).lookup_scope nm).isSome = (env.lookup_scope nm).isSome := by
  unfold Environment.insert_binding
  split
  · rfl
  · unfold Environment.lookup_scope
    dsimp only
    rw [isSome_map_snd, isSome_map_snd]
    exact find_update_scope_isSome _ _ _ _

theorem Environment.lookup_scope_insert_var (env : Environment) (v : String)
    (pl : Place) (nm : String) :
    ((env.insert_var v pl).lookup_scope nm).isSome = (env.lookup_scope nm).isSome := by
  unfold Environment.insert_var
  split
  · rfl
  · unfold Environment.lookup_scope
    dsimp only
    rw [isSome_map_snd, isSome_map_snd]
    exact find_update_scope_isSome _ _ _ _

theorem Environment.lookup_scope_enter_scope (env : Environment) (name nm : String) :
    (env.lookup_scope nm).isSome → ((env.enter_scope name).lookup_scope nm).isSome := by
  unfold Environment.enter_scope
  split
  · exact fun h => h
  · unfold Environment.create_scope Environment.lookup_scope
    intro h
    by_cases hnm : name = nm
    · simp [List.find?_cons, hnm]
    · simp only [List.find?_cons]
      simpa [hnm] using h

theorem env_preserved_refl (a : Environment) : env_preserved a a :=
  ⟨rfl, fun _ h => h⟩

theorem env_preserved_trans {a b c : Environment} :
    env_preserved a b → env_preserved b c → env_preserved a c :=
  fun h1 h2 => ⟨h2.1.trans h1.1, fun nm h => h2.2 nm (h1.2 nm h)⟩

theorem env_preserved_insert_binding (env : Environment) (pl : Place) (ty : TypeVar) :
    env_preserved env (env.insert_binding pl ty) :=
  ⟨Environment.live_insert_binding env pl ty,
   fun nm h => by rw [Environment.lookup_scope_insert_binding]; exact h⟩

theorem env_preserved_insert_var (env : Environment) (v : String) (pl : Place) :
    env_preserved env (env.insert_var v pl) :=
  ⟨Environment.live_insert_var env v pl,
   fun nm h => by rw [Environment.lookup_scope_insert_var]; exact h⟩

theorem Environment.lookup_scope_leave_scope (env : Environment) (nm : String) :
    env.leave_scope.lookup_scope nm = env.lookup_scope nm := rfl

theorem env_preserved_enter_leave (env : Environment) (name : String) :
    env_preserved env ((env.enter_scope name).leave_scope) :=
  ⟨by rw [Environment.live_leave_scope, Environment.live_enter_scope]; rfl,
   fun nm h => by
     rw [Environment.lookup_scope_leave_scope]
     exact Environment.lookup_scope_enter_scope env name nm h⟩

theorem check_assignment_env (c : Checker) (n : Node) (c' : Checker) (e : Option CheckErr) :
    check_assignment c n = .ok (c', e) → env_preserved c.env c'.env := by
  intro h
  unfold check_assignment at h
  split at h <;> try cases h
  split at h <;> try cases h
  split at h <;> try cases h
  split at h
  · split at h <;> try cases h
    split at h <;> try cases h
    split at h <;> cases h <;>
      exact env_preserved_trans (env_preserved_insert_binding _ _ _)
        (env_preserved_insert_var _ _ _)
  · cases h
    exact env_preserved_trans (env_preserved_insert_binding _ _ _)
      (env_preserved_insert_var _ _ _)

theorem env_preserved_binop_record (env : Environment) (node arg1 arg2 : Node)
    (t1 t2 r : TypeVar) : env_preserved env (binop_record env node arg1 arg2 t1 t2 r) := by
  unfold binop_record
  exact env_preserved_trans (env_preserved_insert_binding _ _ _)
    (env_preserved_trans (env_preserved_insert_binding _ _ _)
      (env_preserved_trans (env_preserved_insert_binding _ _ _)
        (env_preserved_insert_binding _ _ _)))

theorem check_binop_env (c : Checker) (n : Node) (c' : Checker) (e : Option CheckErr) :
    check_binop c n = .ok (c', e) → env_preserved c.env c'.env := by
  intro h
  unfold check_binop at h
  split at h <;> try cases h
  split at h <;> try cases h
  split at h <;> try cases h
  split at h <;> try cases h
  split at h
  · split at h <;> cases h
    exact env_preserved_binop_record _ _ _ _ _ _ _
  · cases h
    exact env_preserved_binop_record _ _ _ _ _ _ _
  · cases h
    exact env_preserved_refl _

theorem call_reveal_type_state (c : Checker) (n : Node) (c' : Checker) (e : Option CheckErr) :
    call_reveal_type c n = .ok (c', e) → c' = c := by
  intro h
  unfold call_reveal_type at h
  split at h <;> try cases h
  dsimp only at h
  split at h
  · cases h; rfl
  · split at h <;> cases h <;> rfl

theorem check_fn_call_env (c : Checker) (n : Node) (c' : Checker) (e : Option CheckErr) :
    check_fn_call c n = .ok (c', e) → env_preserved c.env c'.env := by
  intro h
  unfold check_fn_call at h
  cases hfn : n.child_by_field_name "function" with
  | none => rw [hfn] at h; cases h
  | some fnN =>
    rw [hfn] at h
    dsimp only at h
    by_cases hrev : (fnN.text == "reveal_type") = true
    · rw [if_pos hrev] at h
      rw [call_reveal_type_state c n c' e h]
      exact env_preserved_refl _
    · rw [if_neg hrev] at h
      cases hargs : n.child_by_field_name "arguments" with
      | none => rw [hargs] at h; cases h
      | some argsN =>
        simp only [hargs] at h
        cases hsig : (c.env.enter_scope fnN.text).var_type fnN.text with
        | none => simp only [hsig] at h; cases h; exact env_preserved_enter_leave _ _
        | some tv =>
          simp only [hsig] at h
          cases tv <;> try (cases h; exact env_preserved_enter_leave _ _)
          rename_i p params rets
          cases hia : infer_args (c.env.enter_scope fnN.text) argsN.named_children with
          | error m => rw [hia] at h; cases h
          | ok arg_types =>
            simp only [hia] at h
            split at h
            · cases h; exact env_preserved_enter_leave _ _
            · cases hcmp : compare_args fnN.text arg_types params.toList with
              | error m => rw [hcmp] at h; cases h
              | ok errs => simp only [hcmp] at h; cases h; exact env_preserved_enter_leave _ _

theorem process_params_env (ns : List Node) :
    ∀ (env env2 : Environment) (tys : List TypeVar),
      process_params env ns = .ok (env2, tys) → env_preserved env env2 := by
  induction ns with
  | nil =>
    intro env env2 tys h
    unfold process_params at h
    cases h
    exact env_preserved_refl _
  | cons n ns ih =>
    intro env env2 tys h
    unfold process_params at h
    split at h <;> try cases h
    rename_i p_type heq
    dsimp only at h
    cases hrec : process_params
        ((env.insert_binding (Place.from_ts_point n.text n.start_position) p_type).insert_var
          n.text (Place.from_ts_point n.text n.start_position)) ns with
    | error m => rw [hrec] at h; cases h
    | ok pr =>
      obtain ⟨envF, tysF⟩ := pr
      rw [hrec] at h
      cases h
      refine env_preserved_trans ?_ (ih _ _ _ hrec)
      exact env_preserved_trans (env_preserved_insert_binding _ _ _)
        (env_preserved_insert_var _ _ _)

theorem check_function_def_env (c : Checker) (n : Node) (c' : Checker) :
    check_function_def c n = .ok c' → env_preserved c.env c'.env := by
  intro h
  unfold check_function_def at h
  cases hname : n.child_by_field_name "name" with
  | none => rw [hname] at h; cases h
  | some nameN =>
    rw [hname] at h
    cases hpar : n.child_by_field_name "parameters" with
    | none => rw [hpar] at h; cases h
    | some parN =>
      rw [hpar] at h
      cases hbody : n.child_by_field_name "body" with
      | none => rw [hbody] at h; cases h
      | some bodyN =>
        rw [hbody] at h
        dsimp only at h
        cases hpp : process_params (c.env.enter_scope nameN.text) parN.named_children with
        | error m => rw [hpp] at h; cases h
        | ok pr =>
          obtain ⟨env2, ptys⟩ := pr
          simp only [hpp] at h
          have hpp' := process_params_env _ _ _ _ hpp
          have base : env_preserved c.env env2.leave_scope := by
            constructor
            · rw [Environment.live_leave_scope, hpp'.1, Environment.live_enter_scope]; rfl
            · intro nm hs
              rw [Environment.lookup_scope_leave_scope]
              exact hpp'.2 nm (Environment.lookup_scope_enter_scope _ _ nm hs)
          have main : ∀ (pt : List TypeVar) (rts : List TypeVar) (errs : List CheckErr),
              (Except.ok
                  (⟨((env2.leave_scope).insert_binding
                      (Place.from_ts_point nameN.text n.start_position)
                      (.Function (Place.from_ts_point nameN.text n.start_position)
                        (TypeVarList.ofList pt) (TypeVarList.ofList rts))).insert_var
                    nameN.text (Place.from_ts_point nameN.text n.start_position),
                   c.errors ++ errs⟩ : Checker) : Except String Checker) = Except.ok c' →
              env_preserved c.env c'.env := by
            intro pt rts errs heq
            cases heq
            exact env_preserved_trans base
              (env_preserved_trans (env_preserved_insert_binding _ _ _)
                (env_preserved_insert_var _ _ _))
          cases hrt : n.child_by_field_name "return_type" with
          | some rtN =>
            simp only [hrt] at h
            cases hfts : from_type_str rtN.text with
            | none => simp only [hfts] at h; cases h
            | some rty =>
              simp only [hfts] at h
              cases hib : infer_fn_body env2 bodyN (some [rty]) with
              | error m => simp only [hib] at h; cases h
              | ok pr2 =>
                obtain ⟨errs, tys2⟩ := pr2
                simp only [hib] at h
                exact main _ _ _ h
          | none =>
            simp only [hrt] at h
            cases hib : infer_fn_body env2 bodyN Option.none with
            | error m => simp only [hib] at h; cases h
            | ok pr2 =>
              obtain ⟨errs, tys2⟩ := pr2
              simp only [hib] at h
              exact main _ _ _ h

theorem check_visit_env (c : Checker) (n : Node) (c' : Checker) :
    check_visit c n = .ok c' → env_preserved c.env c'.env := by
  intro h
  unfold check_visit at h
  split at h
  · cases h; exact env_preserved_refl _
  · cases hres : check_assignment c n with
    | error m => rw [hres] at h; unfold push_result at h; cases h
    | ok p =>
      obtain ⟨c2, e⟩ := p
      rw [hres] at h
      unfold push_result at h
      cases e
      · cases h; exact check_assignment_env _ _ _ _ hres
      · cases h
        exact (check_assignment_env _ _ _ _ hres : env_preserved c.env c2.env)
  · cases hres : check_binop c n with
    | error m => rw [hres] at h; unfold push_result at h; cases h
    | ok p =>
      obtain ⟨c2, e⟩ := p
      rw [hres] at h
      unfold push_result at h
      cases e
      · cases h; exact check_binop_env _ _ _ _ hres
      · cases h
        exact (check_binop_env _ _ _ _ hres : env_preserved c.env c2.env)
  · exact check_function_def_env _ _ _ h
  · cases hres : check_fn_call c n with
    | error m => rw [hres] at h; unfold push_result at h; cases h
    | ok p =>
      obtain ⟨c2, e⟩ := p
      rw [hres] at h
      unfold push_result at h
      cases e
      · cases h; exact check_fn_call_env _ _ _ _ hres
      · cases h
        exact (check_fn_call_env _ _ _ _ hres : env_preserved c.env c2.env)
  · cases h; exact env_preserved_refl _
  · cases h; exact env_preserved_refl _

theorem compare_args_eq (fn_name : String) :
    ∀ (args : List (Node × Except CheckErr TypeVar)) (params : List TypeVar)
      (errs : List CheckErr),
      compare_args fn_name args params = .ok errs →
      errs = pairwise_mismatch_errs fn_name args params := by
  intro args
  induction args with
  | nil =>
    intro params errs h
    unfold compare_args at h
    cases h
    rfl
  | cons a rest ih =>
    intro params errs h
    obtain ⟨n, r⟩ := a
    cases r with
    | ok arg_ty =>
      cases params with
      | nil => unfold compare_args at h; cases h
      | cons b bs =>
        unfold compare_args at h
        cases htc : type_check arg_ty b with
        | none => rw [htc] at h; cases h
        | some tcok =>
          simp only [htc] at h
          cases hrec : compare_args fn_name rest bs with
          | error m => simp only [hrec] at h; cases h
          | ok errs0 =>
            simp only [hrec] at h
            cases h
            cases tcok <;>
              simp [pairwise_mismatch_errs, List.filterMap_cons, htc, arg_mismatch_err,
                ih _ _ hrec]
    | error e0 =>
      cases params with
      | nil => unfold compare_args at h; cases h
      | cons b bs =>
        unfold compare_args at h
        cases hrec : compare_args fn_name rest bs with
        | error m => rw [hrec] at h; cases h
        | ok errs0 =>
          simp only [hrec] at h
          cases h
          simp [pairwise_mismatch_errs, List.filterMap_cons, ih _ _ hrec]

theorem process_returns_eq (env : Environment) (allowed : List TypeVar) :
    ∀ (rs : List Node) (errs : List CheckErr) (tys : List TypeVar),
      process_returns env (some allowed) rs = .ok (errs, tys) →
      errs = return_mismatch_errs env allowed rs := by
  intro rs
  induction rs with
  | nil =>
    intro errs tys h
    unfold process_returns at h
    cases h
    rfl
  | cons r rest ih =>
    intro errs tys h
    unfold process_returns at h
    cases hinf : infer_type_for_node env r with
    | error m => rw [hinf] at h; cases h
    | ok o =>
      cases o with
      | none => rw [hinf] at h; cases h
      | some ty =>
        simp only [hinf] at h
        cases hrec : process_returns env (some allowed) rest with
        | error m => simp only [hrec] at h; cases h
        | ok pr =>
          obtain ⟨errs0, tys0⟩ := pr
          simp only [hrec] at h
          cases h
          by_cases hc : contains_tv allowed ty = true <;>
            simp [return_mismatch_errs, List.filterMap_cons, hinf, hc, return_type_err,
              ih _ _ hrec]

theorem infer_field_eq (env : Environment) :
    ∀ (cs : Children) (fld : String) (c : Node),
      cs.child_by_field_name fld = some c →
      infer_field env cs fld = some (infer_type_for_node env c)
  | .nil, fld, c => by
      intro h
      simp [Children.child_by_field_name] at h
  | .cons f nm ch cst, fld, c => by
      intro h
      unfold Children.child_by_field_name at h
      unfold infer_field
      by_cases hf : f = some fld
      · rw [if_pos hf] at h
        rw [if_pos hf]
        cases h
        rfl
      · rw [if_neg hf] at h
        rw [if_neg hf]
        exact infer_field_eq env cst fld c h

theorem Scope.lookup_place_insert_self (sc : Scope) (pl : Place) (ty : TypeVar) :
    (sc.insert_binding pl ty).lookup_place pl = some ty := by
  simp [Scope.insert_binding, Scope.lookup_place, List.find?_cons]

theorem insert_binding_top (env : Environment) (top : String) (rest : List String)
    (sc : Scope) (pl : Place) (ty : TypeVar)
    (hlive : env.live_scopes = top :: rest) (hsc : env.lookup_scope top = some sc) :
    (env.insert_binding pl ty).live_scopes = top :: rest ∧
      (env.insert_binding pl ty).lookup_scope top = some (sc.insert_binding pl ty) := by
  unfold Environment.insert_binding
  rw [hlive]
  dsimp only
  constructor
  · rfl
  · unfold Environment.lookup_scope at hsc ⊢
    dsimp only
    rw [find_update_scope_self]
    cases hfind : env.scopes.find? (fun p => p.1 = top) with
    | none => rw [hfind] at hsc; cases hsc
    | some pr =>
      rw [hfind] at hsc
      obtain ⟨k, s⟩ := pr
      simp at hsc
      subst hsc
      rfl

theorem lookup_binding_of_top (env : Environment) (top : String) (rest : List String)
    (sc : Scope) (pl : Place) (ty : TypeVar)
    (hlive : env.live_scopes = top :: rest) (hsc : env.lookup_scope top = some sc)
    (hpl : sc.lookup_place pl = some ty) :
    env.lookup_binding pl = some ty := by
  unfold Environment.lookup_binding
  rw [hlive, List.findSome?_cons, hsc]
  simp [hpl]

/-- C1: for every pair of `TypeVar`s not both `Union`, `type_check` returns
(without panicking) exactly the claimed compatibility: true when either
operand is `Any`; else, with exactly one `Union(ts)` operand, true iff the
other operand is an exact member of `ts` (payload included); otherwise true
iff the operands share a variant tag, payloads ignored — so in particular
two `Integer`s with different literal payloads are compatible. -/
theorem c1_type_check_matches_claim :
    ∀ a b : TypeVar, ¬(a.isUnion = true ∧ b.isUnion = true) →
      type_check a b = some (type_check_claimed a b) := by
  intro a b h
  cases a <;> cases b <;>
    simp_all [type_check, type_check_claimed, TypeVar.isUnion, TypeVar.tag]

theorem c1_witness :
    ¬((TypeVar.Integer 1).isUnion = true ∧ (TypeVar.Integer 2).isUnion = true) ∧
      type_check (.Integer 1) (.Integer 2) = some (type_check_claimed (.Integer 1) (.Integer 2)) ∧
      type_check_claimed (.Integer 1) (.Integer 2) = true :=
  ⟨by decide, c1_type_check_matches_claim (.Integer 1) (.Integer 2) (by decide), by rfl⟩

/-- C2 (code bug): on an identifier with no live binding (`a = x` with `x`
unbound — `var_type` is absent because the name-to-`Place` lookup fails),
the checker does not emit a recoverable `UndefinedIdentifier` diagnostic:
`infer_type_for_node`'s `expect` panics and the whole run aborts. -/
theorem c2_undefined_identifier_panics :
    (Checker.new "test.py").env.var_type "x" = Option.none ∧
      check_visit (Checker.new "test.py") assign_undefined_node
        = .error "couldnt find type for var x" :=
  ⟨rfl, rfl⟩

/-- C3 (counterexample): `def f() -> int: return 1` — the declared type
`int` converts to `Integer(0)`, the discovered return type is `Integer(1)`,
`type_check(declared, found)` succeeds, yet the checker still emits a
return-type diagnostic, because `infer_fn_body` tests membership by exact
equality (`Vec::contains`), not by `type_check`. -/
theorem c3_counterexample :
    from_type_str "int" = some (.Integer 0) ∧
      type_check (.Integer 0) (.Integer 1) = some true ∧
      errors_of (check_function_def (Checker.new "test.py") fn_def_int_node)
        = [CheckErr.new "Unexpected return type Integer(1), fn signature return [Integer(0)]"
            ⟨"start", 0, 16⟩ (some ⟨"end", 0, 24⟩)] :=
  ⟨rfl, rfl, rfl⟩

/-- C3 (amended): for a function body checked against a declared
result-type list, the emitted diagnostics are exactly one per discovered
return statement whose inferred type is not an exact member (payload
included) of that list — each tied to that return statement, in discovery
order — and none for a return whose inferred type is an exact member; a
body with two offending returns yields exactly two diagnostics. -/
theorem c3_amended_return_diagnostics :
    ∀ (env : Environment) (body : Node) (allowed : List TypeVar)
      (errs : List CheckErr) (tys : List TypeVar),
      infer_fn_body env body (some allowed) = .ok (errs, tys) →
      errs = return_mismatch_errs env allowed body.collect_returns := by
  intro env body allowed errs tys h
  unfold infer_fn_body at h
  cases hpr : process_returns env (some allowed) body.collect_returns with
  | error m => rw [hpr] at h; cases h
  | ok pr =>
    obtain ⟨errs0, tys0⟩ := pr
    simp only [hpr] at h
    cases h
    exact process_returns_eq env allowed _ _ _ hpr

theorem c3_amended_witness :
    infer_fn_body (Checker.new "test.py").env body_two_int_returns (some [.String])
        = .ok ([return_type_err [.String] return_one_row1_node (.Integer 1),
                return_type_err [.String] return_two_row2_node (.Integer 2)],
               [.Integer 1, .Integer 2]) ∧
      [return_type_err [.String] return_one_row1_node (.Integer 1),
       return_type_err [.String] return_two_row2_node (.Integer 2)]
        = return_mismatch_errs (Checker.new "test.py").env [.String]
            body_two_int_returns.collect_returns :=
  ⟨rfl, c3_amended_return_diagnostics (Checker.new "test.py").env body_two_int_returns
    [.String] _ _ rfl⟩

/-- C5: every completed engine operation (`check_visit` on any node)
restores the live scope stack — each `enter_scope` push performed during
the operation, including on the early-diagnostic-return paths, is matched
by exactly one pop before the operation returns. -/
theorem c5_live_stack_preserved :
    ∀ (c : Checker) (node : Node) (c' : Checker),
      check_visit c node = .ok c' → c'.env.live_scopes = c.env.live_scopes :=
  fun c node c' h => (check_visit_env c node c' h).1

theorem c5_witness :
    checker_after_fn_def.env.live_scopes = (Checker.new "test.py").env.live_scopes :=
  c5_live_stack_preserved (Checker.new "test.py") fn_def_int_node checker_after_fn_def rfl

/-- C6: `enter_scope(name)` reuses the registered scope of that name
unchanged (all bindings included) when it exists, pushing it; otherwise it
registers a fresh empty scope under that name and pushes it, leaving every
other registry entry unchanged; and no scope is ever removed from the
registry by any completed engine operation. -/
theorem c6_enter_scope_reuse_and_registry :
    (∀ (env : Environment) (name : String) (sc : Scope),
        env.lookup_scope name = some sc →
        (env.enter_scope name).scopes = env.scopes ∧
          (env.enter_scope name).live_scopes = name :: env.live_scopes ∧
          (env.enter_scope name).lookup_scope name = some sc) ∧
    (∀ (env : Environment) (name : String),
        env.lookup_scope name = Option.none →
        (env.enter_scope name).live_scopes = name :: env.live_scopes ∧
          (env.enter_scope name).lookup_scope name = some (Scope.new name) ∧
          ∀ nm, nm ≠ name → (env.enter_scope name).lookup_scope nm = env.lookup_scope nm) ∧
    (∀ (c : Checker) (node : Node) (c' : Checker) (nm : String),
        check_visit c node = .ok c' →
        (c.env.lookup_scope nm).isSome → (c'.env.lookup_scope nm).isSome) := by
  refine ⟨?_, ?_, ?_⟩
  · intro env name sc hsc
    unfold Environment.enter_scope
    rw [hsc]
    exact ⟨rfl, rfl, hsc⟩
  · intro env name hnone
    unfold Environment.enter_scope
    rw [hnone]
    refine ⟨rfl, ?_, ?_⟩
    · simp [Environment.create_scope, Environment.lookup_scope, List.find?_cons]
    · intro nm hne
      unfold Environment.create_scope Environment.lookup_scope
      have hd : (name = nm) = False := eq_false (fun h => hne h.symm)
      simp [List.find?_cons, hd]
  · exact fun c node c' nm h => (check_visit_env c node c' h).2 nm

theorem c6_witness :
    ((Environment.new "test.py").enter_scope "f").lookup_scope "f" = some (Scope.new "f") ∧
      (checker_after_call_g.env.lookup_scope "test.py").isSome :=
  ⟨(c6_enter_scope_reuse_and_registry.2.1 (Environment.new "test.py") "f" rfl).2.1,
   c6_enter_scope_reuse_and_registry.2.2 (Checker.new "test.py") call_g_node
     checker_after_call_g "test.py" rfl rfl⟩

/-- C4: for a call whose callee resolves to a `Function` binding, when the
argument count differs from the parameter count exactly one arity
diagnostic naming both counts and spanning the whole call is returned and
no per-argument comparison contributes any diagnostic (the accumulated
error list stays `c.errors`); when the counts match, the pairwise
`type_check` comparison appends exactly one `TypeMismatch` per failing
pair (and the per-argument diagnostic of an argument with no type),
continuing past every mismatch, and no arity diagnostic is returned. -/
theorem c4_fn_call_arity_and_pairwise :
    ∀ (c : Checker) (node fnN args_node : Node) (p : Place) (params rets : TypeVarList)
      (arg_types : List (Node × Except CheckErr TypeVar)),
      node.kind = "call" →
      node.child_by_field_name "function" = some fnN →
      fnN.text ≠ "reveal_type" →
      node.child_by_field_name "arguments" = some args_node →
      (c.env.enter_scope fnN.text).var_type fnN.text = some (.Function p params rets) →
      infer_args (c.env.enter_scope fnN.text) args_node.named_children = .ok arg_types →
      (arg_types.length ≠ params.toList.length →
        check_fn_call c node
          = .ok (⟨(c.env.enter_scope fnN.text).leave_scope, c.errors⟩,
              some (CheckErr.new
                ("Fn called with " ++ toString arg_types.length ++ " args expected "
                  ++ toString params.toList.length)
                (Place.from_ts_point "fncall" node.start_position)
                (some (Place.from_ts_point "fncall" node.end_position))))) ∧
      (∀ errs, arg_types.length = params.toList.length →
        compare_args fnN.text arg_types params.toList = .ok errs →
        check_fn_call c node
            = .ok (⟨(c.env.enter_scope fnN.text).leave_scope, c.errors ++ errs⟩, Option.none) ∧
          errs = pairwise_mismatch_errs fnN.text arg_types params.toList) := by
  intro c node fnN args_node p params rets arg_types hkind hfn hne hargs hsig hia
  have hbeq : (fnN.text == "reveal_type") = false := beq_eq_false_iff_ne.mpr hne
  constructor
  · intro hlen
    unfold check_fn_call
    simp only [hfn, hbeq, Bool.false_eq_true, if_false, hargs, hsig, hia]
    rw [if_pos hlen]
  · intro errs hlen hcmp
    constructor
    · unfold check_fn_call
      simp only [hfn, hbeq, Bool.false_eq_true, if_false, hargs, hsig, hia]
      rw [if_neg (fun hx => hx hlen), hcmp]
    · exact compare_args_eq fnN.text arg_types params.toList errs hcmp

theorem c4_witness :
    (check_fn_call checker_with_f call_f_str_node
        = .ok (⟨(checker_with_f.env.enter_scope "f").leave_scope,
            [arg_mismatch_err "f" (node_str "\"a\"" ⟨1, 2⟩ ⟨1, 5⟩) .String (.Integer 0)]⟩,
          Option.none)
      ∧ [arg_mismatch_err "f" (node_str "\"a\"" ⟨1, 2⟩ ⟨1, 5⟩) .String (.Integer 0)]
          = pairwise_mismatch_errs "f"
              [(node_str "\"a\"" ⟨1, 2⟩ ⟨1, 5⟩, .ok .String)] [.Integer 0]) ∧
    check_fn_call checker_with_f call_f_two_args_node
        = .ok (⟨(checker_with_f.env.enter_scope "f").leave_scope, []⟩,
            some (CheckErr.new "Fn called with 2 args expected 1"
              ⟨"fncall", 1, 0⟩ (some ⟨"fncall", 1, 7⟩))) :=
  ⟨(c4_fn_call_arity_and_pairwise checker_with_f call_f_str_node
      (node_id "f" ⟨1, 0⟩ ⟨1, 1⟩)
      (Node.mk "argument_list" "(\"a\")" ⟨1, 1⟩ ⟨1, 6⟩
        (.cons Option.none true (node_str "\"a\"" ⟨1, 2⟩ ⟨1, 5⟩) .nil))
      ⟨"f", 0, 0⟩ (.cons (.Integer 0) .nil) (.cons (.Integer 0) .nil)
      [(node_str "\"a\"" ⟨1, 2⟩ ⟨1, 5⟩, .ok .String)]
      rfl rfl (by decide) rfl rfl rfl).2
      [arg_mismatch_err "f" (node_str "\"a\"" ⟨1, 2⟩ ⟨1, 5⟩) .String (.Integer 0)] rfl rfl,
   (c4_fn_call_arity_and_pairwise checker_with_f call_f_two_args_node
      (node_id "f" ⟨1, 0⟩ ⟨1, 1⟩)
      (Node.mk "argument_list" "(1, 2)" ⟨1, 1⟩ ⟨1, 7⟩
        (.cons Option.none true (node_int "1" ⟨1, 2⟩ ⟨1, 3⟩)
        (.cons Option.none true (node_int "2" ⟨1, 5⟩ ⟨1, 6⟩) .nil)))
      ⟨"f", 0, 0⟩ (.cons (.Integer 0) .nil) (.cons (.Integer 0) .nil)
      [(node_int "1" ⟨1, 2⟩ ⟨1, 3⟩, .ok (.Integer 1)),
       (node_int "2" ⟨1, 5⟩ ⟨1, 6⟩, .ok (.Integer 2))]
      rfl rfl (by decide) rfl rfl rfl).1 (by decide)⟩

theorem binop_record_lookup (env : Environment) (node arg1 arg2 : Node)
    (t1 t2 rty : TypeVar) (top : String) (rest : List String) (sc : Scope)
    (hlive : env.live_scopes = top :: rest) (hsc : env.lookup_scope top = some sc) :
    (binop_record env node arg1 arg2 t1 t2 rty).lookup_binding
      (Place.from_ts_point "return" node.start_position) = some rty := by
  unfold binop_record
  obtain ⟨hl1, hs1⟩ := insert_binding_top env top rest sc _ _ hlive hsc
  obtain ⟨hl2, hs2⟩ := insert_binding_top _ top rest _ _ _ hl1 hs1
  obtain ⟨hl3, hs3⟩ := insert_binding_top _ top rest _ _ _ hl2 hs2
  obtain ⟨hl4, hs4⟩ := insert_binding_top _ top rest _ _ _ hl3 hs3
  exact lookup_binding_of_top _ top rest _ _ _ hl4 hs4
    (Scope.lookup_place_insert_self _ _ _)

/-- C7: for a binary-operation node whose operands infer successfully:
two `Integer` operands yield (no diagnostic and) a recorded result type
`Integer` whose payload is the sum of the two literal payloads; two
`String` operands yield `String`; any other pairing returns exactly one
diagnostic spanning the operator node, records nothing (the checker state
is unchanged), and `check_visit` appends just that one diagnostic and
continues. -/
theorem c7_binop_rule_table :
    ∀ (c : Checker) (node arg1 arg2 : Node) (t1 t2 : TypeVar) (top : String)
      (rest : List String) (sc : Scope),
      node.kind = "binary_operator" →
      node.child_by_field_name "left" = some arg1 →
      node.child_by_field_name "right" = some arg2 →
      infer_type_for_node c.env arg1 = .ok (some t1) →
      infer_type_for_node c.env arg2 = .ok (some t2) →
      c.env.live_scopes = top :: rest →
      c.env.lookup_scope top = some sc →
      (∀ a b, t1 = .Integer a → t2 = .Integer b → a + b ≤ usize_max →
        check_binop c node
            = .ok (⟨binop_record c.env node arg1 arg2 t1 t2 (.Integer (a + b)), c.errors⟩,
                Option.none) ∧
          (binop_record c.env node arg1 arg2 t1 t2 (.Integer (a + b))).lookup_binding
              (Place.from_ts_point "return" node.start_position)
            = some (.Integer (a + b))) ∧
      (t1 = .String → t2 = .String →
        check_binop c node
            = .ok (⟨binop_record c.env node arg1 arg2 t1 t2 .String, c.errors⟩,
                Option.none) ∧
          (binop_record c.env node arg1 arg2 t1 t2 .String).lookup_binding
              (Place.from_ts_point "return" node.start_position) = some .String) ∧
      ((∀ a b, ¬(t1 = .Integer a ∧ t2 = .Integer b)) → ¬(t1 = .String ∧ t2 = .String) →
        check_binop c node
            = .ok (c, some (CheckErr.new
                ("Invalid types (" ++ debug_type_var t1 ++ ", " ++ debug_type_var t2
                  ++ ") for BinOp")
                (Place.from_ts_point "binop" node.start_position)
                (some (Place.from_ts_point "binop" node.end_position)))) ∧
          check_visit c node
            = .ok { c with errors := c.errors ++ [CheckErr.new
                ("Invalid types (" ++ debug_type_var t1 ++ ", " ++ debug_type_var t2
                  ++ ") for BinOp")
                (Place.from_ts_point "binop" node.start_position)
                (some (Place.from_ts_point "binop" node.end_position))] }) := by
  intro c node arg1 arg2 t1 t2 top rest sc hkind hleft hright hinf1 hinf2 hlive hsc
  refine ⟨?_, ?_, ?_⟩
  · intro a b h1 h2 hov
    subst h1; subst h2
    constructor
    · unfold check_binop
      simp only [hleft, hright, hinf1, hinf2]
      rw [if_pos hov]
    · exact binop_record_lookup c.env node arg1 arg2 _ _ _ top rest sc hlive hsc
  · intro h1 h2
    subst h1; subst h2
    constructor
    · unfold check_binop
      simp only [hleft, hright, hinf1, hinf2]
    · exact binop_record_lookup c.env node arg1 arg2 _ _ _ top rest sc hlive hsc
  · intro hni hns
    have hcb : check_binop c node
        = .ok (c, some (CheckErr.new
            ("Invalid types (" ++ debug_type_var t1 ++ ", " ++ debug_type_var t2
              ++ ") for BinOp")
            (Place.from_ts_point "binop" node.start_position)
            (some (Place.from_ts_point "binop" node.end_position)))) := by
      unfold check_binop
      simp only [hleft, hright, hinf1, hinf2]
      cases t1 <;> cases t2 <;> try rfl
      · exact absurd ⟨rfl, rfl⟩ (hni _ _)
      · exact absurd ⟨rfl, rfl⟩ hns
    refine ⟨hcb, ?_⟩
    unfold check_visit
    rw [hkind]
    show push_result (check_binop c node) = _
    rw [hcb]
    rfl

theorem c7_witness :
    check_binop (Checker.new "test.py") binop_ints_node
        = .ok (⟨binop_record (Checker.new "test.py").env binop_ints_node
            (node_int "1" ⟨0, 4⟩ ⟨0, 5⟩) (node_int "2" ⟨0, 8⟩ ⟨0, 9⟩)
            (.Integer 1) (.Integer 2) (.Integer 3), []⟩, Option.none) ∧
      (binop_record (Checker.new "test.py").env binop_ints_node
          (node_int "1" ⟨0, 4⟩ ⟨0, 5⟩) (node_int "2" ⟨0, 8⟩ ⟨0, 9⟩)
          (.Integer 1) (.Integer 2) (.Integer 3)).lookup_binding
        ⟨"return", 0, 4⟩ = some (.Integer 3) :=
  (c7_binop_rule_table (Checker.new "test.py") binop_ints_node
      (node_int "1" ⟨0, 4⟩ ⟨0, 5⟩) (node_int "2" ⟨0, 8⟩ ⟨0, 9⟩)
      (.Integer 1) (.Integer 2) "test.py" [] (Scope.new "test.py")
      rfl rfl rfl rfl rfl rfl rfl).1 1 2 rfl rfl (by decide)

/-- C8: a call expression used as a value, whose callee infers to a
`Function` type, takes as its inferred type the single member of the
function's result-type set when that set has exactly one member, and
`Union` of the whole set when it has more than one. -/
theorem c8_call_value_type :
    ∀ (env : Environment) (node fc : Node) (p : Place) (ps rets : TypeVarList),
      node.kind = "call" →
      node.child_by_field_name "function" = some fc →
      infer_type_for_node env fc = .ok (some (.Function p ps rets)) →
      (∀ t, rets = .cons t .nil → infer_type_for_node env node = .ok (some t)) ∧
      (1 < rets.length → infer_type_for_node env node = .ok (some (.Union rets))) := by
  intro env node fc p ps rets hkind hfc hsig
  cases node with
  | mk k txt s e cs =>
    have hk : k = "call" := hkind
    subst hk
    have hif : infer_field env cs "function" = some (infer_type_for_node env fc) :=
      infer_field_eq env cs "function" fc hfc
    have harm : infer_type_for_node env (Node.mk "call" txt s e cs)
        = (match infer_field env cs "function" with
          | Option.none => .error "getting fn name"
          | some (.error m) => .error m
          | some (.ok Option.none) => .ok Option.none
          | some (.ok (some sig)) =>
              match sig with
              | .Function _ _ ret_val =>
                  if ret_val.length == 1 then .ok ret_val.head?
                  else .ok (some (.Union ret_val))
              | _ => .ok (some .None)) := rfl
    constructor
    · intro t hrets
      subst hrets
      rw [harm, hif, hsig]
      rfl
    · intro hlen
      rw [harm, hif, hsig]
      have hne1 : (rets.length == 1) = false :=
        beq_eq_false_iff_ne.mpr (ne_of_gt hlen)
      simp only [hne1, Bool.false_eq_true, if_false]

theorem c8_witness :
    infer_type_for_node checker_with_g.env call_g_value_node
      = .ok (some (.Union (.cons (.Integer 1) (.cons .String .nil)))) :=
  (c8_call_value_type checker_with_g.env call_g_value_node
      (node_id "g" ⟨1, 4⟩ ⟨1, 5⟩) ⟨"g", 0, 0⟩ .nil
      (.cons (.Integer 1) (.cons .String .nil)) rfl rfl rfl).2 (by decide)

theorem string_toList_append (s t : String) : (s ++ t).toList = s.toList ++ t.toList := by
  cases s; cases t; rfl

theorem count_str_repeat (s : String) (ch : Char) (n : Nat) :
    (str_repeat s n).toList.count ch = n * s.toList.count ch := by
  induction n with
  | zero => simp [str_repeat]
  | succ n ih =>
      have hstep : str_repeat s (n + 1) = s ++ str_repeat s n := rfl
      rw [hstep, string_toList_append, List.count_append, ih, Nat.succ_mul]
      ring

/-- C9 (counterexample): checking the two-line binary operation
`1 +⏎"x"` (starting at column 5 of row 0, ending at column 3 of row 1)
produces a diagnostic whose end column (3) is smaller than its start
column (5), and rendering its underline panics on the `usize`
subtraction `end.column - start.column`. -/
theorem c9_counterexample :
    check_binop (Checker.new "test.py") binop_multiline_node
        = .ok (Checker.new "test.py",
            some (CheckErr.new "Invalid types (Integer(1), String) for BinOp"
              ⟨"binop", 0, 5⟩ (some ⟨"binop", 1, 3⟩))) ∧
      render_underline (CheckErr.new "Invalid types (Integer(1), String) for BinOp"
          ⟨"binop", 0, 5⟩ (some ⟨"binop", 1, 3⟩))
        = .error "attempt to subtract with overflow" :=
  ⟨rfl, rfl⟩

/-- C9 (amended): for every diagnostic with an end `Place` whose end column
is at least the start column, the rendered underline consists of exactly
`end.column - start.column` caret characters (aligned under the start
column after the gutter); the subtraction can underflow — the checker does
construct diagnostics from multi-line nodes whose end column is smaller
than their start column, and rendering such a diagnostic panics. -/
theorem c9_amended_underline :
    ∀ (err : CheckErr) (endp : Place),
      err.end_place = some endp →
      err.start_place.column ≤ endp.column →
      ∃ s, render_underline err = .ok s ∧
        s.toList.count '^' = endp.column - err.start_place.column := by
  intro err endp hend hle
  unfold render_underline
  simp only [hend]
  rw [if_neg (Nat.not_lt.mpr hle)]
  refine ⟨_, rfl, ?_⟩
  have hdata : ∀ t : String, t.data = t.toList := fun _ => rfl
  simp only [string_toList_append, List.count_append, hdata, count_str_repeat]
  have h1 : (" " : String).toList.count '^' = 0 := by decide
  have h2 : ("^" : String).toList.count '^' = 1 := by decide
  have h3 : (" | " : String).toList.count '^' = 0 := by decide
  rw [h1, h2, h3]
  omega

theorem c9_witness :
    (CheckErr.new "msg" ⟨"start", 0, 2⟩ (some ⟨"end", 0, 5⟩)).end_place
        = some ⟨"end", 0, 5⟩ ∧
      ∃ s, render_underline (CheckErr.new "msg" ⟨"start", 0, 2⟩ (some ⟨"end", 0, 5⟩))
          = .ok s ∧ s.toList.count '^' = 3 :=
  ⟨rfl, c9_amended_underline (CheckErr.new "msg" ⟨"start", 0, 2⟩ (some ⟨"end", 0, 5⟩))
    ⟨"end", 0, 5⟩ rfl (by decide)⟩

/-- C10: a call (other than `reveal_type`) whose callee name does not
resolve to a `Function`-typed binding triggers no arity check, no argument
comparison and no diagnostic: `check_fn_call` returns success with the
error list unchanged; as a side effect the callee-named scope is entered
(and popped), and it is registered in the environment — freshly so when it
was not already present, and it is never removed afterwards. -/
theorem c10_unresolved_callee_no_checks :
    ∀ (c : Checker) (node fnN args_node : Node),
      node.kind = "call" →
      node.child_by_field_name "function" = some fnN →
      fnN.text ≠ "reveal_type" →
      node.child_by_field_name "arguments" = some args_node →
      (∀ (p : Place) (params rets : TypeVarList),
        (c.env.enter_scope fnN.text).var_type fnN.text ≠ some (.Function p params rets)) →
      check_fn_call c node
          = .ok (⟨(c.env.enter_scope fnN.text).leave_scope, c.errors⟩, Option.none) ∧
        ((c.env.enter_scope fnN.text).leave_scope).live_scopes = c.env.live_scopes ∧
        ((c.env.enter_scope fnN.text).lookup_scope fnN.text).isSome = true ∧
        (c.env.lookup_scope fnN.text = Option.none →
          (c.env.enter_scope fnN.text).scopes
            = (fnN.text, Scope.new fnN.text) :: c.env.scopes) := by
  intro c node fnN args_node hkind hfn hne hargs habs
  have hbeq : (fnN.text == "reveal_type") = false := beq_eq_false_iff_ne.mpr hne
  refine ⟨?_, ?_, ?_, ?_⟩
  · unfold check_fn_call
    simp only [hfn, hbeq, Bool.false_eq_true, if_false, hargs]
  · rw [Environment.live_leave_scope, Environment.live_enter_scope]; rfl
  · unfold Environment.enter_scope
    split
    · rename_i sc hsc
      have hrec : ({ c.env with live_scopes := fnN.text :: c.env.live_scopes }
            : Environment).lookup_scope fnN.text = c.env.lookup_scope fnN.text := rfl
      rw [hrec, hsc]
      rfl
    · simp [Environment.create_scope, Environment.lookup_scope, List.find?_cons]
  · intro hnone
    unfold Environment.enter_scope
    rw [hnone]
    rfl

theorem c10_witness :
    check_fn_call (Checker.new "test.py") call_g_node
        = .ok (⟨((Checker.new "test.py").env.enter_scope "g").leave_scope, []⟩,
          Option.none) ∧
      (((Checker.new "test.py").env.enter_scope "g").lookup_scope "g").isSome = true :=
  ⟨(c10_unresolved_callee_no_checks (Checker.new "test.py") call_g_node
      (node_id "g" ⟨0, 0⟩ ⟨0, 1⟩)
      (Node.mk "argument_list" "(1)" ⟨0, 1⟩ ⟨0, 4⟩
        (.cons Option.none true (node_int "1" ⟨0, 2⟩ ⟨0, 3⟩) .nil))
      rfl rfl (by decide) rfl
      (fun p params rets h => Option.noConfusion h)).1,
   (c10_unresolved_callee_no_checks (Checker.new "test.py") call_g_node
      (node_id "g" ⟨0, 0⟩ ⟨0, 1⟩)
      (Node.mk "argument_list" "(1)" ⟨0, 1⟩ ⟨0, 4⟩
        (.cons Option.none true (node_int "1" ⟨0, 2⟩ ⟨0, 3⟩) .nil))
      rfl rfl (by decide) rfl
      (fun p params rets h => Option.noConfusion h)).2.2.1⟩
